import Mathlib

/-!
# Montelight: a shallow embedding of `src/montelight.cc`

The source is a single-file ray caster: a 3-component `Vector` type, a
`Ray`, a polymorphic `Shape` (base class whose `intersects` returns the
no-hit sentinel `0`) with one variant `Sphere`, a nearest-hit scan over a
scene list in `main`, a camera-ray generator, and an `Image` buffer with a
vertically flipped storage index and a PPM writer.

C doubles and floats are modelled by `ℝ` (exact real arithmetic); the
float literals `0.01f` and `1e20f` are modelled by the real numbers they
denote in the source text, `0.01` and `1e20`.  Unsigned-integer pixel
coordinates and dimensions are modelled by `ℕ`; the unsigned subtraction
`height - y` in `setPixel` agrees with truncated `Nat` subtraction for
every `y ≤ height`, which covers every call the render loop makes.
-/

namespace Montelight

/-- `struct Vector` (montelight.cc line 11): three `double` components,
used as a point, a direction and an RGB color. -/
structure Vector where
  x : ℝ
  y : ℝ
  z : ℝ

namespace Vector

/-- `operator+` (line 16). -/
instance : Add Vector := ⟨fun a o => ⟨a.x + o.x, a.y + o.y, a.z + o.z⟩⟩

/-- `operator-` (line 19). -/
instance : Sub Vector := ⟨fun a o => ⟨a.x - o.x, a.y - o.y, a.z - o.z⟩⟩

/-- `operator*(double)` (line 22): scaling on the right, as in the source. -/
instance : HMul Vector ℝ Vector := ⟨fun a o => ⟨a.x * o, a.y * o, a.z * o⟩⟩

/-- `dot` (line 25). -/
def dot (a o : Vector) : ℝ := a.x * o.x + a.y * o.y + a.z * o.z

/-- `norm` (line 28): rescale by the reciprocal magnitude.  The source
mutates in place and returns itself; the embedding returns the new value. -/
noncomputable def norm (a : Vector) : Vector :=
  a * (1 / Real.sqrt (a.x * a.x + a.y * a.y + a.z * a.z))

/-- `cross` (line 31). -/
def cross (a o : Vector) : Vector :=
  ⟨a.y * o.z - a.z * o.y, a.z * o.x - a.x * o.z, a.x * o.y - a.y * o.x⟩

end Vector

/-- `struct Ray` (line 36): origin and direction. -/
structure Ray where
  origin : Vector
  direction : Vector

/-- `#define EPSILON 0.01f` (line 7): root-rejection tolerance. -/
def EPSILON : ℝ := 0.01

/-- `struct Sphere` (line 75): center, radius and flat color.  The color
stored here is the one passed to the `Shape` base constructor, the only
color `main` ever reads. -/
structure Sphere where
  center : Vector
  radius : ℝ
  color : Vector

/-- `Sphere::intersects` (lines 81-107): quadratic ray-sphere test.
Returns `0` when the discriminant is negative, otherwise the first of
`-b - sqrt(disc)`, `-b + sqrt(disc)` exceeding `EPSILON`, else `0`.
Note the source never divides by `2a`. -/
noncomputable def Sphere.intersects (s : Sphere) (r : Ray) : ℝ :=
  let offset := r.origin - s.center
  let a := r.direction.dot r.direction
  let b := 2 * offset.dot r.direction
  let c := offset.dot offset - s.radius * s.radius
  let disc := b * b - 4 * a * c
  if disc < 0 then 0
  else
    let sd := Real.sqrt disc
    let t1 := -b - sd
    if t1 > EPSILON then t1
    else
      let t2 := -b + sd
      if t2 > EPSILON then t2
      else 0

/-- `struct Shape` (line 68) and its single subclass: a closed variant.
`Shape.base` is a direct instance of the base class, whose virtual
`intersects` (line 72) returns the no-hit sentinel `0`. -/
inductive Shape where
  | base (color : Vector)
  | sphere (s : Sphere)

/-- The `color` member read by `main` via `obj->color` (line 147): the
base-class field, initialised from the constructor argument. -/
def Shape.color : Shape → Vector
  | .base c => c
  | .sphere s => s.color

/-- Virtual dispatch of `intersects`: the base class returns `0`
(line 72), `Sphere` overrides it (line 81). -/
noncomputable def Shape.intersects : Shape → Ray → ℝ
  | .base _, _ => 0
  | .sphere s, r => s.intersects r

/-- The nearest-hit scan of `main` (lines 144-150), with the loop state
`(color, closest)` made explicit: for each object, if
`hit > 0 && hit < closest` then record its color and distance. -/
noncomputable def resolveAux : List Shape → Ray → Vector → ℝ → Vector
  | [], _, color, _ => color
  | obj :: rest, r, color, closest =>
    if 0 < obj.intersects r ∧ obj.intersects r < closest then
      resolveAux rest r obj.color (obj.intersects r)
    else
      resolveAux rest r color closest

/-- Nearest-hit resolution as `main` performs it per pixel
(lines 142-150): `color` starts at the default-constructed background
`(0,0,0)` and `closest` at the sentinel `1e20`. -/
noncomputable def resolve (scene : List Shape) (r : Ray) : Vector :=
  resolveAux scene r ⟨0, 0, 0⟩ 1e20

/-- The camera ray of a pixel (lines 139-140):
`d = cx*((x/w)-0.5) + cy*((y/h)-0.5) + camera.direction`, origin pushed
along the un-normalized `d` by `140`, direction the normalized `d`. -/
noncomputable def cameraRay (cam : Ray) (cx cy : Vector) (w h x y : ℝ) :
    Ray :=
  let d := cx * (x / w - 0.5) + cy * (y / h - 0.5) + cam.direction
  ⟨cam.origin + d * (140 : ℝ), d.norm⟩

/-- `Image` (line 41): dimensions plus a pixel store.  The raw C array is
modelled as a total map from indices so that the out-of-range index
arithmetic of `setPixel` stays expressible. -/
structure Image where
  width : ℕ
  height : ℕ
  pixels : ℕ → Vector

/-- `Image::Image` (line 45): `new Vector[width*height]` default
constructs every element, i.e. fills the buffer with `(0,0,0)`. -/
def Image.make (w h : ℕ) : Image := ⟨w, h, fun _ => ⟨0, 0, 0⟩⟩

/-- The storage index `(height - y) * width + x` computed by
`Image::setPixel` (line 49); the subtraction is unsigned, which for
`y ≤ height` is truncated `Nat` subtraction. -/
def setPixelIndex (height y width x : ℕ) : ℕ := (height - y) * width + x

/-- `Image::setPixel` (lines 48-50): store `v` at the flipped index. -/
def Image.setPixel (img : Image) (x y : ℕ) (v : Vector) : Image :=
  { img with
    pixels := fun i =>
      if i = setPixelIndex img.height y img.width x then v
      else img.pixels i }

/-- `Image::save` (lines 51-62), restricted to the pixel body it writes:
for each buffer index `i` below `width * height`, the three integers
`pixels[i].x * 255`, `pixels[i].y * 255`, `pixels[i].z * 255` after the
double-to-unsigned conversion, which truncates; for the in-range channel
values `[0,1]` this is the floor. -/
noncomputable def Image.save (img : Image) : List (ℤ × ℤ × ℤ) :=
  (List.range (img.width * img.height)).map fun i =>
    (⌊(img.pixels i).x * 255⌋, ⌊(img.pixels i).y * 255⌋,
      ⌊(img.pixels i).z * 255⌋)

/-- The per-pixel pipeline of `main` (lines 138-150): build the camera
ray for pixel `(x, y)` and resolve the nearest hit. -/
noncomputable def renderPixel (scene : List Shape) (cam : Ray)
    (cx cy : Vector) (w h : ℕ) (x y : ℕ) : Vector :=
  resolve scene (cameraRay cam cx cy (w : ℝ) (h : ℝ) (x : ℝ) (y : ℝ))

/-- The full render loop of `main` (lines 134-155): one sample pass
(`samples < 1`), rows outer, columns inner, each pixel written once via
`setPixel`. -/
noncomputable def renderImage (scene : List Shape) (cam : Ray)
    (cx cy : Vector) (w h : ℕ) : Image :=
  (List.range h).foldl
    (fun img y =>
      (List.range w).foldl
        (fun img x => img.setPixel x y (renderPixel scene cam cx cy w h x y))
        img)
    (Image.make w h)

@[simp] lemma Vector.add_x (a o : Vector) : (a + o).x = a.x + o.x := rfl
@[simp] lemma Vector.add_y (a o : Vector) : (a + o).y = a.y + o.y := rfl
@[simp] lemma Vector.add_z (a o : Vector) : (a + o).z = a.z + o.z := rfl
@[simp] lemma Vector.sub_x (a o : Vector) : (a - o).x = a.x - o.x := rfl
@[simp] lemma Vector.sub_y (a o : Vector) : (a - o).y = a.y - o.y := rfl
@[simp] lemma Vector.sub_z (a o : Vector) : (a - o).z = a.z - o.z := rfl
@[simp] lemma Vector.smul_x (a : Vector) (o : ℝ) : (a * o).x = a.x * o := rfl
@[simp] lemma Vector.smul_y (a : Vector) (o : ℝ) : (a * o).y = a.y * o := rfl
@[simp] lemma Vector.smul_z (a : Vector) (o : ℝ) : (a * o).z = a.z * o := rfl
@[simp] lemma Vector.mk_x (a b c : ℝ) : (Vector.mk a b c).x = a := rfl
@[simp] lemma Vector.mk_y (a b c : ℝ) : (Vector.mk a b c).y = b := rfl
@[simp] lemma Vector.mk_z (a b c : ℝ) : (Vector.mk a b c).z = c := rfl

/-- `Sphere.intersects` with the local bindings of the source spelled
out, for rewriting. -/
lemma Sphere.intersects_def (s : Sphere) (r : Ray) :
    s.intersects r =
      if (2 * (r.origin - s.center).dot r.direction) *
           (2 * (r.origin - s.center).dot r.direction) -
           4 * (r.direction.dot r.direction) *
           ((r.origin - s.center).dot (r.origin - s.center) -
             s.radius * s.radius) < 0 then 0
      else if -(2 * (r.origin - s.center).dot r.direction) -
          Real.sqrt ((2 * (r.origin - s.center).dot r.direction) *
            (2 * (r.origin - s.center).dot r.direction) -
            4 * (r.direction.dot r.direction) *
            ((r.origin - s.center).dot (r.origin - s.center) -
              s.radius * s.radius)) > EPSILON then
        -(2 * (r.origin - s.center).dot r.direction) -
          Real.sqrt ((2 * (r.origin - s.center).dot r.direction) *
            (2 * (r.origin - s.center).dot r.direction) -
            4 * (r.direction.dot r.direction) *
            ((r.origin - s.center).dot (r.origin - s.center) -
              s.radius * s.radius))
      else if -(2 * (r.origin - s.center).dot r.direction) +
          Real.sqrt ((2 * (r.origin - s.center).dot r.direction) *
            (2 * (r.origin - s.center).dot r.direction) -
            4 * (r.direction.dot r.direction) *
            ((r.origin - s.center).dot (r.origin - s.center) -
              s.radius * s.radius)) > EPSILON then
        -(2 * (r.origin - s.center).dot r.direction) +
          Real.sqrt ((2 * (r.origin - s.center).dot r.direction) *
            (2 * (r.origin - s.center).dot r.direction) -
            4 * (r.direction.dot r.direction) *
            ((r.origin - s.center).dot (r.origin - s.center) -
              s.radius * s.radius))
      else 0 := rfl

lemma sqrt_four : Real.sqrt 4 = 2 := by
  rw [show (4 : ℝ) = 2 ^ 2 by norm_num, Real.sqrt_sq (by norm_num : (0:ℝ) ≤ 2)]

/-- Unit sphere at the origin, hit head-on from distance `3`: the code
returns `4`, twice the geometric distance, because lines 98 and 102 skip
the division by `2a` of the quadratic formula. -/
lemma intersects_eval_head_on :
    Sphere.intersects ⟨⟨0, 0, 0⟩, 1, ⟨1, 1, 1⟩⟩ ⟨⟨0, 0, 3⟩, ⟨0, 0, -1⟩⟩ = 4 := by
  rw [Sphere.intersects_def]
  norm_num [Vector.dot, EPSILON, sqrt_four]

/-- Unit sphere at the origin hit head-on from distance `1e20`: the
returned value `2e20 - 2` exceeds the `1e20` sentinel of `main`. -/
lemma intersects_eval_far :
    Sphere.intersects ⟨⟨0, 0, 0⟩, 1, ⟨1, 0, 0⟩⟩ ⟨⟨0, 0, 1e20⟩, ⟨0, 0, -1⟩⟩ =
      2e20 - 2 := by
  rw [Sphere.intersects_def]
  norm_num [Vector.dot, EPSILON, sqrt_four]

/-- Unit sphere centered at `(0,0,6)`, ray from the origin along `+z`:
hit value `10`. -/
lemma intersects_eval_near10 :
    Sphere.intersects ⟨⟨0, 0, 6⟩, 1, ⟨1, 0, 0⟩⟩ ⟨⟨0, 0, 0⟩, ⟨0, 0, 1⟩⟩ = 10 := by
  rw [Sphere.intersects_def]
  norm_num [Vector.dot, EPSILON, sqrt_four]

/-- Unit sphere centered at `(0,0,11)`, ray from the origin along `+z`:
hit value `20`. -/
lemma intersects_eval_far20 :
    Sphere.intersects ⟨⟨0, 0, 11⟩, 1, ⟨0, 1, 0⟩⟩ ⟨⟨0, 0, 0⟩, ⟨0, 0, 1⟩⟩ = 20 := by
  rw [Sphere.intersects_def]
  norm_num [Vector.dot, EPSILON, sqrt_four]

/-- If no shape of the scene passes the `hit > 0 && hit < closest` test,
the scan leaves the accumulated color untouched. -/
lemma resolveAux_of_no_hit (scene : List Shape) (r : Ray) :
    ∀ (color : Vector) (closest : ℝ),
      (∀ s ∈ scene, ¬(0 < s.intersects r ∧ s.intersects r < closest)) →
      resolveAux scene r color closest = color := by
  induction scene with
  | nil => intro color closest _; rfl
  | cons head tail ih =>
    intro color closest h
    simp only [resolveAux]
    rw [if_neg (h head (by simp))]
    exact ih color closest fun s hs => h s (by simp [hs])

/-- The scan returns the color of the entry with the least strictly
positive hit distance, earliest entry first on ties, provided that
distance undercuts the running `closest`. -/
lemma resolveAux_min (r : Ray) (scene : List Shape) :
    ∀ (color : Vector) (closest : ℝ) (i : ℕ) (hi : i < scene.length),
      0 < scene[i].intersects r →
      scene[i].intersects r < closest →
      (∀ j (hj : j < scene.length), 0 < scene[j].intersects r →
        scene[i].intersects r ≤ scene[j].intersects r) →
      (∀ j (hj : j < scene.length), j < i → 0 < scene[j].intersects r →
        scene[i].intersects r < scene[j].intersects r) →
      resolveAux scene r color closest = scene[i].color := by
  induction scene with
  | nil => intro _ _ i hi; simp at hi
  | cons head tail ih =>
    intro color closest i hi hpos hlt hmin htie
    cases i with
    | zero =>
      simp only [List.getElem_cons_zero] at hpos hlt ⊢
      simp only [resolveAux]
      rw [if_pos ⟨hpos, hlt⟩]
      apply resolveAux_of_no_hit
      intro s hs hcond
      obtain ⟨j, hj, rfl⟩ := List.mem_iff_getElem.mp hs
      have h1 := hmin (j + 1) (by simpa using Nat.succ_lt_succ hj)
        (by simpa using hcond.1)
      simp only [List.getElem_cons_zero, List.getElem_cons_succ] at h1
      exact absurd hcond.2 (not_lt.mpr h1)
    | succ k =>
      have hk : k < tail.length := by simpa using hi
      simp only [List.getElem_cons_succ] at hpos hlt ⊢
      simp only [resolveAux]
      by_cases hc : 0 < head.intersects r ∧ head.intersects r < closest
      · rw [if_pos hc]
        refine ih head.color (head.intersects r) k hk hpos ?_ ?_ ?_
        · have := htie 0 (by simp) (Nat.succ_pos _) (by simpa using hc.1)
          simpa using this
        · intro j hj hp
          have := hmin (j + 1) (by simpa using Nat.succ_lt_succ hj)
            (by simpa using hp)
          simpa using this
        · intro j hj hji hp
          have := htie (j + 1) (by simpa using Nat.succ_lt_succ hj)
            (Nat.succ_lt_succ hji) (by simpa using hp)
          simpa using this
      · rw [if_neg hc]
        refine ih color closest k hk hpos hlt ?_ ?_
        · intro j hj hp
          have := hmin (j + 1) (by simpa using Nat.succ_lt_succ hj)
            (by simpa using hp)
          simpa using this
        · intro j hj hji hp
          have := htie (j + 1) (by simpa using Nat.succ_lt_succ hj)
            (Nat.succ_lt_succ hji) (by simpa using hp)
          simpa using this

/-- Inserting a base-class `Shape` anywhere in the scene leaves the scan
unchanged: its hit value `0` never passes the `hit > 0` test. -/
lemma resolveAux_base_skip (c : Vector) (r : Ray) :
    ∀ (xs ys : List Shape) (color : Vector) (closest : ℝ),
      resolveAux (xs ++ Shape.base c :: ys) r color closest =
        resolveAux (xs ++ ys) r color closest := by
  intro xs
  induction xs with
  | nil =>
    intro ys color closest
    simp only [List.nil_append, resolveAux]
    rw [if_neg (by simp [Shape.intersects])]
  | cons head tail ih =>
    intro ys color closest
    simp only [List.cons_append, resolveAux]
    by_cases hc : 0 < head.intersects r ∧ head.intersects r < closest
    · rw [if_pos hc, if_pos hc]
      exact ih ys head.color (head.intersects r)
    · rw [if_neg hc, if_neg hc]
      exact ih ys color closest

/-- C1: the claim says that for a ray whose origin lies outside the
sphere and whose unit direction points at the center, `intersects`
returns `distanceToCenter - radius`.  On the unit sphere at the origin
viewed from `(0,0,3)` along `(0,0,-1)` — origin outside (`3 > 1`), unit
direction toward the center — the code returns `4 = 2*(3 - 1)`, twice
the claimed value `3 - 1 = 2`: lines 98 and 102 omit the division by
`2a` of the quadratic formula, contradicting the code's own comment
that it returns "at what distance" the ray intersects. -/
theorem intersects_head_on_is_twice_distance :
    Sphere.intersects ⟨⟨0, 0, 0⟩, 1, ⟨1, 1, 1⟩⟩ ⟨⟨0, 0, 3⟩, ⟨0, 0, -1⟩⟩ =
      2 * (3 - 1) ∧
    Sphere.intersects ⟨⟨0, 0, 0⟩, 1, ⟨1, 1, 1⟩⟩ ⟨⟨0, 0, 3⟩, ⟨0, 0, -1⟩⟩ ≠
      3 - 1 := by
  rw [intersects_eval_head_on]
  norm_num

/-- C2: the claim says every storage index `(height - y) * width + x`
used by the render loop stays inside the `width * height` buffer.  The
loop starts at `y = 0` (line 136), and there the index equals
`width * height`, one element past the end of the allocation: the very
first pixel write is out of bounds. -/
theorem setPixel_index_out_of_bounds_at_row_zero :
    setPixelIndex 256 0 256 0 = 256 * 256 ∧
    ¬ setPixelIndex 256 0 256 0 < 256 * 256 := by
  constructor
  · norm_num [setPixelIndex]
  · norm_num [setPixelIndex]

/-- C3: `intersects` returns `0` on a negative discriminant, otherwise
the first of `-b - sqrt(disc)`, `-b + sqrt(disc)` exceeding `0.01`, else
`0`; consequently its value is always either `0` or strictly greater
than `0.01`. -/
theorem intersects_root_selection_and_range (s : Sphere) (r : Ray) :
    (s.intersects r =
      let b := 2 * (r.origin - s.center).dot r.direction
      let disc := b * b - 4 * (r.direction.dot r.direction) *
        ((r.origin - s.center).dot (r.origin - s.center) -
          s.radius * s.radius)
      if disc < 0 then 0
      else if -b - Real.sqrt disc > 0.01 then -b - Real.sqrt disc
      else if -b + Real.sqrt disc > 0.01 then -b + Real.sqrt disc
      else 0) ∧
    (s.intersects r = 0 ∨ s.intersects r > 0.01) := by
  constructor
  · rfl
  · rw [Sphere.intersects_def]
    split_ifs with h1 h2 h3
    · exact Or.inl rfl
    · exact Or.inr (by simpa [EPSILON] using h2)
    · exact Or.inr (by simpa [EPSILON] using h3)
    · exact Or.inl rfl

/-- C4, counterexample: a single sphere hit at distance `2e20 - 2` —
strictly positive, hence the (unique) smallest positive hit — yet
`resolve` returns the background `(0,0,0)` instead of the sphere's color
`(1,0,0)`, because the hit does not undercut the initial
`closest = 1e20` sentinel.  The claim fails as stated for arbitrary
scenes. -/
theorem resolve_misses_hit_beyond_sentinel :
    0 < Shape.intersects (Shape.sphere ⟨⟨0, 0, 0⟩, 1, ⟨1, 0, 0⟩⟩)
        ⟨⟨0, 0, 1e20⟩, ⟨0, 0, -1⟩⟩ ∧
    resolve [Shape.sphere ⟨⟨0, 0, 0⟩, 1, ⟨1, 0, 0⟩⟩]
        ⟨⟨0, 0, 1e20⟩, ⟨0, 0, -1⟩⟩ = ⟨0, 0, 0⟩ ∧
    Shape.color (Shape.sphere ⟨⟨0, 0, 0⟩, 1, ⟨1, 0, 0⟩⟩) = ⟨1, 0, 0⟩ ∧
    (⟨0, 0, 0⟩ : Vector) ≠ ⟨1, 0, 0⟩ := by
  refine ⟨?_, ?_, rfl, ?_⟩
  · simp only [Shape.intersects]
    rw [intersects_eval_far]
    norm_num
  · unfold resolve
    simp only [resolveAux, Shape.intersects]
    rw [if_neg (by rw [intersects_eval_far]; norm_num)]
  · intro h
    have := congrArg Vector.x h
    norm_num at this

/-- C4, amended: the resolver returns the color of the shape with the
smallest strictly positive intersection distance provided that distance
undercuts the initial sentinel `1e20`; on ties the earliest shape in
scene order wins (strict less-than comparison). -/
theorem resolve_returns_nearest_hit_color (scene : List Shape) (r : Ray)
    (i : ℕ) (hi : i < scene.length)
    (hpos : 0 < scene[i].intersects r)
    (hsent : scene[i].intersects r < 1e20)
    (hmin : ∀ j (hj : j < scene.length), 0 < scene[j].intersects r →
      scene[i].intersects r ≤ scene[j].intersects r)
    (htie : ∀ j (hj : j < scene.length), j < i → 0 < scene[j].intersects r →
      scene[i].intersects r < scene[j].intersects r) :
    resolve scene r = scene[i].color :=
  resolveAux_min r scene ⟨0, 0, 0⟩ 1e20 i hi hpos hsent hmin htie

/-- C4, witness: two spheres along one ray, hit at `10` and `20`; the
resolver returns the color `(1,0,0)` of the nearer, first-listed one. -/
theorem resolve_returns_nearest_hit_color_witness :
    resolve [Shape.sphere ⟨⟨0, 0, 6⟩, 1, ⟨1, 0, 0⟩⟩,
        Shape.sphere ⟨⟨0, 0, 11⟩, 1, ⟨0, 1, 0⟩⟩]
      ⟨⟨0, 0, 0⟩, ⟨0, 0, 1⟩⟩ = ⟨1, 0, 0⟩ := by
  have h := resolve_returns_nearest_hit_color
    [Shape.sphere ⟨⟨0, 0, 6⟩, 1, ⟨1, 0, 0⟩⟩,
      Shape.sphere ⟨⟨0, 0, 11⟩, 1, ⟨0, 1, 0⟩⟩]
    ⟨⟨0, 0, 0⟩, ⟨0, 0, 1⟩⟩ 0 (by norm_num)
    (by simp only [List.getElem_cons_zero, Shape.intersects]
        rw [intersects_eval_near10]; norm_num)
    (by simp only [List.getElem_cons_zero, Shape.intersects]
        rw [intersects_eval_near10]; norm_num)
    (by intro j hj hp
        match j, hj with
        | 0, _ => exact le_refl _
        | 1, _ =>
          simp only [List.getElem_cons_zero, List.getElem_cons_succ,
            Shape.intersects]
          rw [intersects_eval_near10, intersects_eval_far20]
          norm_num)
    (by intro j hj hji hp; exact absurd hji (Nat.not_lt_zero j))
  rw [h]
  rfl

/-- C5: the camera ray of pixel `(x, y)` has origin
`cam.origin + d * 140` with `d` the un-normalized direction
`cx*((x/w) - 0.5) + cy*((y/h) - 0.5) + forward`, and direction the
normalized `d`. -/
theorem cameraRay_unnormalized_origin_normalized_direction
    (cam : Ray) (cx cy : Vector) (w h x y : ℝ) :
    (cameraRay cam cx cy w h x y).origin =
      cam.origin +
        (cx * (x / w - 0.5) + cy * (y / h - 0.5) + cam.direction) *
          (140 : ℝ) ∧
    (cameraRay cam cx cy w h x y).direction =
      Vector.norm (cx * (x / w - 0.5) + cy * (y / h - 0.5) + cam.direction) :=
  ⟨rfl, rfl⟩

/-- C6: `setPixel` stores the color at storage index
`(height - y) * width + x` and changes no other buffer element. -/
theorem setPixel_writes_exactly_flipped_index
    (img : Image) (x y : ℕ) (v : Vector) :
    (img.setPixel x y v).pixels ((img.height - y) * img.width + x) = v ∧
    ∀ i, i ≠ (img.height - y) * img.width + x →
      (img.setPixel x y v).pixels i = img.pixels i := by
  constructor
  · simp [Image.setPixel, setPixelIndex]
  · intro i hi
    simp [Image.setPixel, setPixelIndex, hi]

/-- C6, witness: on a `5 × 4` image, writing pixel `(3, 2)` fills index
`(4 - 2) * 5 + 3 = 13` and leaves index `0` untouched. -/
theorem setPixel_writes_exactly_flipped_index_witness :
    ((Image.make 5 4).setPixel 3 2 ⟨1, 0, 0⟩).pixels ((4 - 2) * 5 + 3) =
      ⟨1, 0, 0⟩ ∧
    ((Image.make 5 4).setPixel 3 2 ⟨1, 0, 0⟩).pixels 0 =
      (Image.make 5 4).pixels 0 :=
  ⟨(setPixel_writes_exactly_flipped_index (Image.make 5 4) 3 2 ⟨1, 0, 0⟩).1,
   (setPixel_writes_exactly_flipped_index (Image.make 5 4) 3 2 ⟨1, 0, 0⟩).2
     0 (by decide)⟩

/-- C7: a ray for which every shape reports the no-hit sentinel `0`
resolves to the background, the zero vector, unchanged from its initial
value. -/
theorem resolve_no_hit_background (scene : List Shape) (r : Ray)
    (h : ∀ s ∈ scene, s.intersects r = 0) :
    resolve scene r = ⟨0, 0, 0⟩ := by
  unfold resolve
  apply resolveAux_of_no_hit
  intro s hs hc
  rw [h s hs] at hc
  exact lt_irrefl 0 hc.1

/-- C7, witness: a scene holding one base-class shape (its `intersects`
is constantly `0`) resolves to black. -/
theorem resolve_no_hit_background_witness :
    resolve [Shape.base ⟨1, 1, 1⟩] ⟨⟨0, 0, 0⟩, ⟨0, 0, 1⟩⟩ = ⟨0, 0, 0⟩ :=
  resolve_no_hit_background _ _ (by
    intro s hs
    rw [List.mem_singleton] at hs
    subst hs
    rfl)

/-- C8: on an image whose every pixel is the uniform color `(1,0,0)`,
every pixel record the writer emits is the integer triple `(255,0,0)` —
each channel scaled by `255` and truncated. -/
theorem save_uniform_red_roundtrip (w h : ℕ) (p : ℤ × ℤ × ℤ)
    (hp : p ∈ Image.save ⟨w, h, fun _ => ⟨1, 0, 0⟩⟩) :
    p = (255, 0, 0) := by
  unfold Image.save at hp
  simp only [List.mem_map] at hp
  obtain ⟨i, _, rfl⟩ := hp
  norm_num

/-- C8, witness: the single body line of the `1 × 1` uniform `(1,0,0)`
image is `(255,0,0)`. -/
theorem save_uniform_red_roundtrip_witness :
    ((255 : ℤ), (0 : ℤ), (0 : ℤ)) = (255, 0, 0) :=
  save_uniform_red_roundtrip 1 1 (255, 0, 0)
    (by norm_num [Image.save, List.range_succ, List.range_zero])

/-- C9: the render pipeline is deterministic — equal scene and camera
parameters give the identical color at every pixel of the rendered
image. -/
theorem renderImage_deterministic
    (s₁ s₂ : List Shape) (cam₁ cam₂ : Ray) (cx₁ cx₂ cy₁ cy₂ : Vector)
    (w₁ w₂ h₁ h₂ : ℕ)
    (hs : s₁ = s₂) (hcam : cam₁ = cam₂) (hcx : cx₁ = cx₂) (hcy : cy₁ = cy₂)
    (hw : w₁ = w₂) (hh : h₁ = h₂) :
    ∀ x y : ℕ,
      (renderImage s₁ cam₁ cx₁ cy₁ w₁ h₁).pixels (setPixelIndex h₁ y w₁ x) =
      (renderImage s₂ cam₂ cx₂ cy₂ w₂ h₂).pixels (setPixelIndex h₂ y w₂ x) := by
  subst hs hcam hcx hcy hw hh
  intro x y
  rfl

/-- C9, witness: two runs on the empty scene at size `1 × 1` agree at
pixel `(0, 0)`. -/
theorem renderImage_deterministic_witness :
    (renderImage [] ⟨⟨0, 0, 0⟩, ⟨0, 0, 1⟩⟩ ⟨1, 0, 0⟩ ⟨0, 1, 0⟩ 1 1).pixels
        (setPixelIndex 1 0 1 0) =
      (renderImage [] ⟨⟨0, 0, 0⟩, ⟨0, 0, 1⟩⟩ ⟨1, 0, 0⟩ ⟨0, 1, 0⟩ 1 1).pixels
        (setPixelIndex 1 0 1 0) :=
  renderImage_deterministic [] [] ⟨⟨0, 0, 0⟩, ⟨0, 0, 1⟩⟩ ⟨⟨0, 0, 0⟩, ⟨0, 0, 1⟩⟩
    ⟨1, 0, 0⟩ ⟨1, 0, 0⟩ ⟨0, 1, 0⟩ ⟨0, 1, 0⟩ 1 1 1 1
    rfl rfl rfl rfl rfl rfl 0 0

/-- C10: a base-class `Shape` reports `0` for every ray, and inserting
one anywhere in a scene leaves nearest-hit resolution — hence every
pixel color — unchanged. -/
theorem base_shape_never_wins (c : Vector) (r : Ray) (xs ys : List Shape) :
    Shape.intersects (Shape.base c) r = 0 ∧
    resolve (xs ++ Shape.base c :: ys) r = resolve (xs ++ ys) r :=
  ⟨rfl, resolveAux_base_skip c r xs ys ⟨0, 0, 0⟩ 1e20⟩

end Montelight
